import Mathlib

/-!
# udp-sender: the transmission loop of `network/udpfling/udp-sender.c`

A shallow embedding of `main` (from the delay conversion on line 68 to the
`exit` on line 125) and of the signal handler `catch_intr`.

* Machine integers are natural numbers reduced modulo the width of their C
  type: `unsigned int` is 32 bits wide, `unsigned long` and `ssize_t` are
  64 bits wide (LP64).
* The outcome of the `k`-th call of `sendto` (counted from 0) is supplied by
  an oracle `env k`, holding the returned `ssize_t` and the value of `errno`.
* What the program does to the outside world is recorded as a list of
  `Event`s, and the way the process ends as an `Exit`.
* The macros of `udpfling.h` and of the system headers are not part of the
  source file; they are the fields of `Header`.
* The wall-clock timestamp of a report line is a floating point number read
  from `gettimeofday`; a report line is recorded by its delta field alone.
-/

namespace UdpSender

/-! ## Machine integers -/

/-- The number of values of an `unsigned int`. -/
def UINT_MOD : Nat := 2 ^ 32

/-- The number of values of an `unsigned long`. -/
def ULONG_MOD : Nat := 2 ^ 64

/-- Subtraction of two `unsigned long` values, as in `counter - prev_sent_count`. -/
def ulong_sub (a b : Nat) : Nat := (a % ULONG_MOD + ULONG_MOD - b % ULONG_MOD) % ULONG_MOD

/-- The value `printf` shows for an `unsigned long` passed to `%ld`. -/
def to_long (x : Nat) : Int :=
  if x % ULONG_MOD < 2 ^ 63 then ((x % ULONG_MOD : Nat) : Int)
  else ((x % ULONG_MOD : Nat) : Int) - (ULONG_MOD : Int)

/-- Exit code `EX_IOERR` of `sysexits.h`. -/
def EX_IOERR : Nat := 74

/-- Exit code `EXIT_SUCCESS` of `stdlib.h`. -/
def EXIT_SUCCESS : Nat := 0

/-! ## Data model -/

/-- The macros the source takes from `udpfling.h` and `errno.h`, and the byte
order of the host. Each macro is a value of the `unsigned int` or `int` it is
used at. -/
structure Header where
  DEFAULT_BACKOFF : Nat
  MAX_BACKOFF : Nat
  MS_IN_SEC : Nat
  USEC_IN_MS : Nat
  USEC_IN_SEC : Nat
  ENOBUFS : Nat
  EINTR : Nat
  little_endian : Bool
  deriving DecidableEq

/-- The option flags set by `parse_opts` (lines 27 to 30). -/
structure Config where
  Flag_Count : Nat
  Flag_Delay : Nat
  Flag_Max_Send : Nat
  Flag_Padding : Nat
  Flag_Flood : Bool
  Flag_Nanoseconds : Bool
  deriving DecidableEq

/-- Every `unsigned int` flag is in the range of its type. -/
def Config.valid (cfg : Config) : Prop :=
  cfg.Flag_Count < UINT_MOD ∧ cfg.Flag_Delay < UINT_MOD ∧
  cfg.Flag_Max_Send < UINT_MOD ∧ cfg.Flag_Padding < UINT_MOD

instance (cfg : Config) : Decidable cfg.valid := by
  unfold Config.valid; infer_instance

/-- A `struct timespec`. -/
structure timespec where
  tv_sec : Nat
  tv_nsec : Nat
  deriving DecidableEq

/-- What one call of `sendto` gives back: the returned `ssize_t`, and `errno`. -/
structure SendResult where
  sent_size : Int
  errno : Nat
  deriving DecidableEq

/-- The globals the loop reads and writes (lines 13 and 16) and the bytes of
the `payload` buffer. -/
structure State where
  counter : Nat
  prev_sent_count : Nat
  backoff : Nat
  payload : List Nat
  deriving DecidableEq

/-- An action of the process that is visible from outside. -/
inductive Event where
  /-- The call `sendto(sockfd, payload, len, ...)` and the value it returned. -/
  | sendto (payload : List Nat) (len : Nat) (sent_size : Int)
  /-- The warning `warn("retrying sendto (%d):", errno)`. -/
  | warn_retry (errno : Nat)
  /-- The call `nanosleep(&backoff_by, NULL)`. -/
  | nanosleep_backoff (backoff_by : timespec)
  /-- A report line on stdout, with its `%ld` delta field. -/
  | report (delta : Int)
  /-- The call `nanosleep(&delay_by, NULL)`. -/
  | nanosleep_delay (delay_by : timespec)
  /-- The call `close(sockfd)`. -/
  | close
  deriving DecidableEq

/-- The way the process ends. -/
inductive Exit where
  /-- The call `err(EX_IOERR, "send error")` of line 100. -/
  | send_error
  /-- The call `errx(EX_IOERR, "sent size less than expected: ...")` of line 104. -/
  | short_write (sent_size : Int) (expected : Nat)
  /-- The call `exit(EXIT_SUCCESS)` of line 125. -/
  | success
  /-- The call `errx(1, "quit due to SIGINT (sent %ld packets)", counter)`. -/
  | sigint (sent : Int)
  /-- The division by zero of `counter % Flag_Count` when `Flag_Count` is 0. -/
  | sigfpe
  deriving DecidableEq

/-- The exit status of the process; a process killed by the arithmetic fault
has none. -/
def Exit.status : Exit → Option Nat
  | .send_error => some EX_IOERR
  | .short_write _ _ => some EX_IOERR
  | .success => some EXIT_SUCCESS
  | .sigint _ => some 1
  | .sigfpe => none

/-- The result of a piece of straight-line code: the state it leaves, the
events it produced, and the exit if the process ended in it. -/
structure Step where
  st : State
  events : List Event
  exit : Option Exit
  deriving DecidableEq

/-- Sequential composition: the second piece runs only if the first one did
not end the process. -/
def Step.andThen (s : Step) (f : State → Step) : Step :=
  match s.exit with
  | some _ => s
  | none => { st := (f s.st).st, events := s.events ++ (f s.st).events, exit := (f s.st).exit }

/-! ## Startup (lines 68 to 75) -/

/-- Line 68. -/
def time_units (h : Header) (cfg : Config) : Nat :=
  if cfg.Flag_Nanoseconds then h.USEC_IN_SEC else h.MS_IN_SEC

/-- Line 69. -/
def time_units_to_usec (h : Header) (cfg : Config) : Nat :=
  if cfg.Flag_Nanoseconds then 1 else h.USEC_IN_MS

/-- Lines 70 and 71: the pacing delay. -/
def delay_by (h : Header) (cfg : Config) : timespec :=
  { tv_sec := cfg.Flag_Delay / time_units h cfg
    tv_nsec := ((cfg.Flag_Delay % time_units h cfg) * time_units_to_usec h cfg) % UINT_MOD }

/-- The globals when the loop is entered: `counter` and `prev_sent_count` are
zero-initialised, `backoff` is `DEFAULT_BACKOFF` (line 16), and `payload` is
`Flag_Padding` bytes of 255 (lines 73 to 75). -/
def init (h : Header) (cfg : Config) : State :=
  { counter := 0
    prev_sent_count := 0
    backoff := h.DEFAULT_BACKOFF
    payload := List.replicate cfg.Flag_Padding 255 }

/-! ## The loop body (lines 83 to 120) -/

/-- Reversal of the four bytes of a 32-bit value. -/
def bswap32 (x : Nat) : Nat :=
  (x % 256) * 2 ^ 24 + (x / 2 ^ 8 % 256) * 2 ^ 16 + (x / 2 ^ 16 % 256) * 2 ^ 8 + x / 2 ^ 24 % 256

/-- The function `htonl`: the argument is converted to `uint32_t`, and its
bytes are reversed on a little-endian host. -/
def htonl (little_endian : Bool) (x : Nat) : Nat :=
  if little_endian then bswap32 (x % UINT_MOD) else x % UINT_MOD

/-- The four bytes of a `uint32_t` in the order they have in memory. -/
def uint32_bytes (little_endian : Bool) (x : Nat) : List Nat :=
  if little_endian then [x % 256, x / 2 ^ 8 % 256, x / 2 ^ 16 % 256, x / 2 ^ 24 % 256]
  else [x / 2 ^ 24 % 256, x / 2 ^ 16 % 256, x / 2 ^ 8 % 256, x % 256]

/-- The call `memcpy(payload, src, n)` with `n` the length of `src`: the
first bytes of the buffer are overwritten. Only the bytes inside the buffer
are modelled. -/
def memcpy (payload src : List Nat) : List Nat :=
  (src ++ payload.drop src.length).take payload.length

/-- Lines 83 and 84. -/
def encode (h : Header) (st : State) : State :=
  { st with payload :=
      memcpy st.payload (uint32_bytes h.little_endian (htonl h.little_endian st.counter)) }

/-- Lines 93 and 94. -/
def backoff_by (h : Header) (backoff : Nat) : timespec :=
  { tv_sec := backoff / h.USEC_IN_MS, tv_nsec := backoff % h.USEC_IN_MS }

/-- Lines 96 to 98: `backoff <<= 1` on an `unsigned int`, then the clamp. -/
def next_backoff (h : Header) (backoff : Nat) : Nat :=
  if (backoff * 2) % UINT_MOD > h.MAX_BACKOFF then h.MAX_BACKOFF else (backoff * 2) % UINT_MOD

/-- Lines 86 to 108: the call of `sendto` and the handling of its result. -/
def transmit (h : Header) (cfg : Config) (r : SendResult) (st : State) : Step :=
  if r.sent_size < 0 then
    if r.errno = h.ENOBUFS ∨ r.errno = h.EINTR then
      { st := { st with backoff := next_backoff h st.backoff }
        events := Event.sendto st.payload cfg.Flag_Padding r.sent_size ::
          ((if cfg.Flag_Flood then [] else [Event.warn_retry r.errno]) ++
            [Event.nanosleep_backoff (backoff_by h st.backoff)])
        exit := none }
    else
      { st := st
        events := [Event.sendto st.payload cfg.Flag_Padding r.sent_size]
        exit := some Exit.send_error }
  else if r.sent_size < (cfg.Flag_Padding : Int) then
    { st := st
      events := [Event.sendto st.payload cfg.Flag_Padding r.sent_size]
      exit := some (Exit.short_write r.sent_size cfg.Flag_Padding) }
  else
    { st := { st with backoff := h.DEFAULT_BACKOFF }
      events := [Event.sendto st.payload cfg.Flag_Padding r.sent_size]
      exit := none }

/-- Lines 110 to 117: the periodic report line. -/
def report (cfg : Config) (st : State) : Step :=
  if cfg.Flag_Count = 0 then
    { st := st, events := [], exit := some Exit.sigfpe }
  else if st.counter % cfg.Flag_Count = 0 then
    { st := { st with prev_sent_count := st.counter }
      events := [Event.report (to_long (ulong_sub st.counter st.prev_sent_count))]
      exit := none }
  else
    { st := st, events := [], exit := none }

/-- Lines 119 and 120: the pacing sleep. -/
def pace (h : Header) (cfg : Config) (st : State) : Step :=
  { st := st
    events := if cfg.Flag_Flood then [] else [Event.nanosleep_delay (delay_by h cfg)]
    exit := none }

/-- Lines 83 to 120: the body of the loop. -/
def body (h : Header) (cfg : Config) (r : SendResult) (st : State) : Step :=
  ((transmit h cfg r (encode h st)).andThen (report cfg)).andThen (pace h cfg)

/-- One pass through `while (++counter < Flag_Max_Send)`: the increment, the
test, and either the body or, when the test fails, lines 123 to 125. -/
def iteration (h : Header) (cfg : Config) (r : SendResult) (st : State) : Step :=
  if (st.counter + 1) % ULONG_MOD < cfg.Flag_Max_Send then
    body h cfg r { st with counter := (st.counter + 1) % ULONG_MOD }
  else
    { st := { st with counter := (st.counter + 1) % ULONG_MOD }
      events := [Event.close]
      exit := some Exit.success }

/-! ## Runs -/

/-- A finished run: everything the process did, the globals at the end, and
the way it ended. -/
structure Result where
  trace : List Event
  final : State
  exit : Exit
  deriving DecidableEq

/-- The loop from its `k`-th pass on, for at most `fuel` passes. -/
def run (h : Header) (cfg : Config) (env : Nat → SendResult) : Nat → Nat → State → Option Result
  | 0, _, _ => none
  | fuel + 1, k, st =>
    match (iteration h cfg (env k) st).exit with
    | some e =>
      some { trace := (iteration h cfg (env k) st).events
             final := (iteration h cfg (env k) st).st
             exit := e }
    | none =>
      (run h cfg env fuel (k + 1) (iteration h cfg (env k) st).st).map
        (fun r => { r with trace := (iteration h cfg (env k) st).events ++ r.trace })

/-- The program from line 68 on. The loop makes at most `Flag_Max_Send`
passes, so this much fuel is never used up. -/
def main (h : Header) (cfg : Config) (env : Nat → SendResult) : Option Result :=
  run h cfg env (cfg.Flag_Max_Send + 1) 0 (init h cfg)

/-- The globals and the events so far when `n` passes have been made and the
process is still running. -/
def after (h : Header) (cfg : Config) (env : Nat → SendResult) : Nat → Option (State × List Event)
  | 0 => some (init h cfg, [])
  | n + 1 =>
    match after h cfg env n with
    | none => none
    | some p =>
      match (iteration h cfg (env n) p.1).exit with
      | some _ => none
      | none => some ((iteration h cfg (env n) p.1).st, p.2 ++ (iteration h cfg (env n) p.1).events)

/-- The signal handler (lines 128 to 135), run on the globals as they are
when the signal arrives. -/
def catch_intr (st : State) : Step :=
  { st := st
    events := [Event.report (to_long (ulong_sub st.counter st.prev_sent_count))]
    exit := some (Exit.sigint (to_long st.counter)) }

/-- The process when SIGINT arrives after `n` complete passes of the loop. -/
def interrupted (h : Header) (cfg : Config) (env : Nat → SendResult) (n : Nat) : Option Result :=
  match after h cfg env n with
  | none => none
  | some p =>
    match (catch_intr p.1).exit with
    | some e => some { trace := p.2 ++ (catch_intr p.1).events, final := (catch_intr p.1).st, exit := e }
    | none => none

/-! ## Reading a trace -/

/-- The big-endian value of a list of bytes. -/
def be_decode (bytes : List Nat) : Nat :=
  bytes.foldl (fun acc b => acc * 256 + b) 0

/-- The delta fields of the report lines of a trace. -/
def reports : List Event → List Int
  | [] => []
  | Event.report d :: es => d :: reports es
  | _ :: es => reports es

/-- The datagrams handed to `sendto`: buffer and length. -/
def datagrams : List Event → List (List Nat × Nat)
  | [] => []
  | Event.sendto p len _ :: es => (p, len) :: datagrams es
  | _ :: es => datagrams es

/-- The number of calls of `sendto` that did send a datagram. -/
def packets_sent : List Event → Nat
  | [] => 0
  | Event.sendto _ _ n :: es => (if 0 ≤ n then 1 else 0) + packets_sent es
  | _ :: es => packets_sent es

/-- The arguments of the pacing sleeps of a trace. -/
def pacing_sleeps : List Event → List timespec
  | [] => []
  | Event.nanosleep_delay t :: es => t :: pacing_sleeps es
  | _ :: es => pacing_sleeps es

/-- The retry warnings of a trace. -/
def warnings : List Event → List Nat
  | [] => []
  | Event.warn_retry e :: es => e :: warnings es
  | _ :: es => warnings es

/-- The trace without pacing sleeps and retry warnings. -/
def unpaced : List Event → List Event
  | [] => []
  | Event.nanosleep_delay _ :: es => unpaced es
  | Event.warn_retry _ :: es => unpaced es
  | e :: es => e :: unpaced es

/-! ## Send outcomes -/

/-- A transient failure: `sendto` reports an error and `errno` is `ENOBUFS` or `EINTR`. -/
def transient (h : Header) (r : SendResult) : Prop :=
  r.sent_size < 0 ∧ (r.errno = h.ENOBUFS ∨ r.errno = h.EINTR)

instance (h : Header) (r : SendResult) : Decidable (transient h r) := by
  unfold transient; infer_instance

/-- A fatal outcome: an error with any other `errno`, or a short write. -/
def fatal (h : Header) (cfg : Config) (r : SendResult) : Prop :=
  (r.sent_size < 0 ∧ ¬ (r.errno = h.ENOBUFS ∨ r.errno = h.EINTR)) ∨
  (0 ≤ r.sent_size ∧ r.sent_size < (cfg.Flag_Padding : Int))

instance (h : Header) (cfg : Config) (r : SendResult) : Decidable (fatal h cfg r) := by
  unfold fatal; infer_instance

/-- The bytes of the buffer after lines 83 and 84 of the pass that follows `st`. -/
def next_payload (h : Header) (st : State) : List Nat :=
  memcpy st.payload
    (uint32_bytes h.little_endian (htonl h.little_endian ((st.counter + 1) % ULONG_MOD)))

/-- What holds of the globals whenever the loop is about to start a pass. -/
structure Inv (cfg : Config) (n : Nat) (st : State) : Prop where
  counter_eq : st.counter = n
  prev_le : st.prev_sent_count ≤ n
  length_eq : st.payload.length = cfg.Flag_Padding
  fill : ∀ i, 4 ≤ i → i < cfg.Flag_Padding → st.payload[i]? = some 255
  bound : n = 0 ∨ n < cfg.Flag_Max_Send

/-- The globals when `n` passes have been made and the process is still running. -/
def state_after (h : Header) (cfg : Config) (env : Nat → SendResult) (n : Nat) : Option State :=
  (after h cfg env n).map Prod.fst

/-- The configuration with the flood flag set to `b`. -/
def with_flood (cfg : Config) (b : Bool) : Config := { cfg with Flag_Flood := b }

/-- The number of transient failures among the first `n` sends. -/
def transient_count (h : Header) (env : Nat → SendResult) : Nat → Nat
  | 0 => 0
  | n + 1 => transient_count h env n + (if transient h (env n) then 1 else 0)

/-- The process when SIGINT arrives in the pass that follows `n` complete
passes, right after the increment of `++counter` and before `sendto` is
called. -/
def interrupted_after_increment (h : Header) (cfg : Config) (env : Nat → SendResult)
    (n : Nat) : Option Result :=
  match after h cfg env n with
  | none => none
  | some p =>
    match (catch_intr { p.1 with counter := (p.1.counter + 1) % ULONG_MOD }).exit with
    | some e =>
      some { trace := p.2 ++ (catch_intr { p.1 with counter := (p.1.counter + 1) % ULONG_MOD }).events
             final := (catch_intr { p.1 with counter := (p.1.counter + 1) % ULONG_MOD }).st
             exit := e }
    | none => none

/-! ## Sample inputs -/

/-- A header for the examples: Linux values of `errno`, a little-endian host,
units as they are named, a default backoff of 1 and a cap of 1000. -/
def sample_header : Header :=
  { DEFAULT_BACKOFF := 1, MAX_BACKOFF := 1000, MS_IN_SEC := 1000, USEC_IN_MS := 1000
    USEC_IN_SEC := 1000000, ENOBUFS := 105, EINTR := 4, little_endian := true }

/-- A configuration for the examples: limit 100, interval 10, 8 bytes of payload. -/
def sample_config : Config :=
  { Flag_Count := 10, Flag_Delay := 5, Flag_Max_Send := 100, Flag_Padding := 8
    Flag_Flood := false, Flag_Nanoseconds := false }

/-- Every send succeeds in full. -/
def all_sent (_ : Nat) : SendResult := { sent_size := 8, errno := 0 }

/-- The first send succeeds, every later one fails with `ENOBUFS`. -/
def sent_then_nobufs (k : Nat) : SendResult :=
  if k = 0 then { sent_size := 8, errno := 0 } else { sent_size := -1, errno := 105 }

/-- The sample configuration with a send limit of 0. -/
def zero_limit_config : Config := { sample_config with Flag_Max_Send := 0 }

/-- The first send fails with `ENOBUFS`, every later one succeeds in full. -/
def nobufs_then_sent (k : Nat) : SendResult :=
  if k = 0 then { sent_size := -1, errno := 105 } else { sent_size := 8, errno := 0 }

theorem byte_split (a b c d : Nat) (ha : a < 256) (hb : b < 256) (hc : c < 256) (hd : d < 256) :
    (a * 16777216 + b * 65536 + c * 256 + d) % 256 = d ∧
    (a * 16777216 + b * 65536 + c * 256 + d) / 256 % 256 = c ∧
    (a * 16777216 + b * 65536 + c * 256 + d) / 65536 % 256 = b ∧
    (a * 16777216 + b * 65536 + c * 256 + d) / 16777216 % 256 = a := by
  refine ⟨by omega, by omega, by omega, by omega⟩

theorem be_decode_bswap32 (y : Nat) (hy : y < 4294967296) :
    be_decode (uint32_bytes true (bswap32 y)) = y := by
  have ha : y % 256 < 256 := Nat.mod_lt _ (by norm_num)
  have hb : y / 256 % 256 < 256 := Nat.mod_lt _ (by norm_num)
  have hc : y / 65536 % 256 < 256 := Nat.mod_lt _ (by norm_num)
  have hd : y / 16777216 % 256 < 256 := Nat.mod_lt _ (by norm_num)
  have hsum : (((y / 16777216 % 256) * 256 + y / 65536 % 256) * 256 + y / 256 % 256) * 256
      + y % 256 = y := by omega
  obtain ⟨h0, h1, h2, h3⟩ := byte_split _ _ _ _ ha hb hc hd
  simp only [be_decode, uint32_bytes, bswap32, if_true, List.foldl, Nat.reducePow]
  rw [h0, h1, h2, h3]
  omega

theorem be_decode_htonl (le : Bool) (x : Nat) :
    be_decode (uint32_bytes le (htonl le x)) = x % UINT_MOD := by
  cases le
  · simp [be_decode, uint32_bytes, htonl, UINT_MOD]; omega
  · simp only [htonl, if_true]
    exact be_decode_bswap32 _ (Nat.mod_lt _ (by norm_num [UINT_MOD]))

theorem uint32_bytes_length (le : Bool) (x : Nat) : (uint32_bytes le x).length = 4 := by
  cases le <;> simp [uint32_bytes]

theorem memcpy_length (p src : List Nat) : (memcpy p src).length = p.length := by
  simp [memcpy]; omega

theorem memcpy_take (p src : List Nat) (h : src.length ≤ p.length) :
    (memcpy p src).take src.length = src := by
  simp [memcpy, List.take_take, h, List.take_append_of_le_length]

theorem memcpy_getElem? (p src : List Nat) (i : Nat) (h : src.length ≤ i) :
    (memcpy p src)[i]? = p[i]? := by
  unfold memcpy
  by_cases hi : i < p.length
  · rw [List.getElem?_take_of_lt hi, List.getElem?_append_right h, List.getElem?_drop]
    congr 1; omega
  · rw [List.getElem?_eq_none (by simp; omega), List.getElem?_eq_none (by omega)]

/-! ## One pass of the loop -/

theorem iteration_exit_none (h : Header) (cfg : Config) (r : SendResult) (st : State) :
    (iteration h cfg r st).exit = none ↔
      ((st.counter + 1) % ULONG_MOD < cfg.Flag_Max_Send ∧ ¬ fatal h cfg r ∧ cfg.Flag_Count ≠ 0) := by
  unfold iteration body transmit report pace Step.andThen fatal encode
  by_cases hg : (st.counter + 1) % ULONG_MOD < cfg.Flag_Max_Send
  · by_cases hs : r.sent_size < 0
    · by_cases he : r.errno = h.ENOBUFS ∨ r.errno = h.EINTR
      · by_cases hk : cfg.Flag_Count = 0
        · simp [hg, hs, he, hk]
        · by_cases hm : (st.counter + 1) % ULONG_MOD % cfg.Flag_Count = 0
          · simp [hg, hs, he, hk, hm]
          · simp [hg, hs, he, hk, hm]
      · simp [hg, hs, he]
    · by_cases hp : r.sent_size < (cfg.Flag_Padding : Int)
      · simp [hg, hs, hp]
      · by_cases hk : cfg.Flag_Count = 0
        · simp [hg, hs, hp, hk]
        · by_cases hm : (st.counter + 1) % ULONG_MOD % cfg.Flag_Count = 0
          · simp [hg, hs, hp, hk, hm]
          · simp [hg, hs, hp, hk, hm]
  · simp [hg]

theorem iteration_st (h : Header) (cfg : Config) (r : SendResult) (st : State)
    (hc : (iteration h cfg r st).exit = none) :
    (iteration h cfg r st).st =
      { counter := (st.counter + 1) % ULONG_MOD
        prev_sent_count :=
          if (st.counter + 1) % ULONG_MOD % cfg.Flag_Count = 0 then (st.counter + 1) % ULONG_MOD
          else st.prev_sent_count
        backoff := if transient h r then next_backoff h st.backoff else h.DEFAULT_BACKOFF
        payload := next_payload h st } := by
  obtain ⟨hg, hf, hk⟩ := (iteration_exit_none h cfg r st).1 hc
  unfold fatal at hf
  unfold iteration body transmit report pace Step.andThen encode transient next_payload
  by_cases hs : r.sent_size < 0
  · by_cases he : r.errno = h.ENOBUFS ∨ r.errno = h.EINTR
    · by_cases hm : (st.counter + 1) % ULONG_MOD % cfg.Flag_Count = 0
      · simp [hg, hs, he, hk, hm]
      · simp [hg, hs, he, hk, hm]
    · exact absurd (Or.inl ⟨hs, he⟩) hf
  · by_cases hp : r.sent_size < (cfg.Flag_Padding : Int)
    · exact absurd (Or.inr ⟨by omega, hp⟩) hf
    · by_cases hm : (st.counter + 1) % ULONG_MOD % cfg.Flag_Count = 0
      · simp [hg, hs, hp, hk, hm]
      · simp [hg, hs, hp, hk, hm]

theorem iteration_events (h : Header) (cfg : Config) (r : SendResult) (st : State)
    (hc : (iteration h cfg r st).exit = none) :
    (iteration h cfg r st).events =
      Event.sendto (next_payload h st) cfg.Flag_Padding r.sent_size ::
        ((if transient h r then
            (if cfg.Flag_Flood then [] else [Event.warn_retry r.errno]) ++
              [Event.nanosleep_backoff (backoff_by h st.backoff)]
          else []) ++
         (if (st.counter + 1) % ULONG_MOD % cfg.Flag_Count = 0 then
            [Event.report (to_long (ulong_sub ((st.counter + 1) % ULONG_MOD) st.prev_sent_count))]
          else []) ++
         (if cfg.Flag_Flood then [] else [Event.nanosleep_delay (delay_by h cfg)])) := by
  obtain ⟨hg, hf, hk⟩ := (iteration_exit_none h cfg r st).1 hc
  unfold fatal at hf
  unfold iteration body transmit report pace Step.andThen encode transient next_payload
  by_cases hs : r.sent_size < 0
  · by_cases he : r.errno = h.ENOBUFS ∨ r.errno = h.EINTR
    · by_cases hm : (st.counter + 1) % ULONG_MOD % cfg.Flag_Count = 0
      · simp [hg, hs, he, hk, hm]
      · simp [hg, hs, he, hk, hm]
    · exact absurd (Or.inl ⟨hs, he⟩) hf
  · by_cases hp : r.sent_size < (cfg.Flag_Padding : Int)
    · exact absurd (Or.inr ⟨by omega, hp⟩) hf
    · by_cases hm : (st.counter + 1) % ULONG_MOD % cfg.Flag_Count = 0
      · simp [hg, hs, hp, hk, hm]
      · simp [hg, hs, hp, hk, hm]

/-! ## Reachable states -/

theorem after_succ_some (h : Header) (cfg : Config) (env : Nat → SendResult) (n : Nat)
    (st : State) (tr : List Event) (ha : after h cfg env (n + 1) = some (st, tr)) :
    ∃ st0 tr0, after h cfg env n = some (st0, tr0) ∧
      (iteration h cfg (env n) st0).exit = none ∧
      st = (iteration h cfg (env n) st0).st ∧
      tr = tr0 ++ (iteration h cfg (env n) st0).events := by
  simp only [after] at ha
  cases hp : after h cfg env n with
  | none => simp [hp] at ha
  | some p =>
    obtain ⟨st0, tr0⟩ := p
    simp only [hp] at ha
    cases he : (iteration h cfg (env n) st0).exit with
    | some e => simp [he] at ha
    | none =>
      simp only [he] at ha
      have hq := Option.some.inj ha
      exact ⟨st0, tr0, rfl, he, (congrArg Prod.fst hq).symm, (congrArg Prod.snd hq).symm⟩

theorem after_succ_of_continue (h : Header) (cfg : Config) (env : Nat → SendResult) (n : Nat)
    (st0 : State) (tr0 : List Event) (ha : after h cfg env n = some (st0, tr0))
    (hc : (iteration h cfg (env n) st0).exit = none) :
    after h cfg env (n + 1) =
      some ((iteration h cfg (env n) st0).st, tr0 ++ (iteration h cfg (env n) st0).events) := by
  simp [after, ha, hc]

theorem next_payload_length (h : Header) (st : State) :
    (next_payload h st).length = st.payload.length := by
  simp [next_payload, memcpy_length]

theorem next_payload_fill (h : Header) (st : State) (i : Nat) (hi : 4 ≤ i) :
    (next_payload h st)[i]? = st.payload[i]? := by
  unfold next_payload
  exact memcpy_getElem? _ _ _ (by rw [uint32_bytes_length]; exact hi)

theorem after_inv (h : Header) (cfg : Config) (env : Nat → SendResult)
    (hv : cfg.Flag_Max_Send < UINT_MOD) :
    ∀ (n : Nat) (st : State) (tr : List Event),
      after h cfg env n = some (st, tr) → Inv cfg n st := by
  intro n
  induction n with
  | zero =>
    intro st tr ha
    simp only [after, Option.some.injEq, Prod.mk.injEq] at ha
    obtain ⟨rfl, _⟩ := ha
    refine ⟨rfl, Nat.le_refl _, by simp [init], ?_, Or.inl rfl⟩
    intro i _ hi
    simp [init, List.getElem?_replicate, hi]
  | succ n ih =>
    intro st tr ha
    obtain ⟨st0, tr0, ha0, hc, rfl, _⟩ := after_succ_some h cfg env n st tr ha
    have inv := ih st0 tr0 ha0
    have hg := ((iteration_exit_none h cfg (env n) st0).1 hc).1
    have hn : n < UINT_MOD := by
      rcases inv.bound with h0 | h1
      · rw [h0]; norm_num [UINT_MOD]
      · omega
    have hmod : (st0.counter + 1) % ULONG_MOD = n + 1 := by
      rw [inv.counter_eq]
      apply Nat.mod_eq_of_lt
      simp only [UINT_MOD, ULONG_MOD] at *
      omega
    rw [iteration_st h cfg (env n) st0 hc]
    rw [hmod] at hg ⊢
    refine ⟨rfl, ?_, ?_, ?_, Or.inr hg⟩
    · show (if (n + 1) % cfg.Flag_Count = 0 then n + 1 else st0.prev_sent_count) ≤ n + 1
      have := inv.prev_le
      split_ifs <;> omega
    · show (next_payload h st0).length = cfg.Flag_Padding
      rw [next_payload_length, inv.length_eq]
    · intro i h4 hi
      show (next_payload h st0)[i]? = some 255
      rw [next_payload_fill h st0 i h4]
      exact inv.fill i h4 hi

/-- The counter never wraps: the pass that follows `n` passes works on `n + 1`. -/
theorem next_counter (cfg : Config) (hv : cfg.Flag_Max_Send < UINT_MOD) (n : Nat) (st : State)
    (inv : Inv cfg n st) : (st.counter + 1) % ULONG_MOD = n + 1 := by
  rw [inv.counter_eq]
  apply Nat.mod_eq_of_lt
  rcases inv.bound with h0 | h1
  · rw [h0]; norm_num [ULONG_MOD]
  · simp only [UINT_MOD, ULONG_MOD] at *
    omega

/-! ## Backoff -/

theorem iteration_counter (h : Header) (cfg : Config) (r : SendResult) (st : State) :
    (iteration h cfg r st).st.counter = (st.counter + 1) % ULONG_MOD := by
  unfold iteration body transmit report pace Step.andThen encode
  by_cases hg : (st.counter + 1) % ULONG_MOD < cfg.Flag_Max_Send
  · by_cases hs : r.sent_size < 0
    · by_cases he : r.errno = h.ENOBUFS ∨ r.errno = h.EINTR
      · by_cases hk : cfg.Flag_Count = 0
        · simp [hg, hs, he, hk]
        · by_cases hm : (st.counter + 1) % ULONG_MOD % cfg.Flag_Count = 0
          · simp [hg, hs, he, hk, hm]
          · simp [hg, hs, he, hk, hm]
      · simp [hg, hs, he]
    · by_cases hp : r.sent_size < (cfg.Flag_Padding : Int)
      · simp [hg, hs, hp]
      · by_cases hk : cfg.Flag_Count = 0
        · simp [hg, hs, hp, hk]
        · by_cases hm : (st.counter + 1) % ULONG_MOD % cfg.Flag_Count = 0
          · simp [hg, hs, hp, hk, hm]
          · simp [hg, hs, hp, hk, hm]
  · simp [hg]

theorem iteration_datagrams (h : Header) (cfg : Config) (r : SendResult) (st : State)
    (hg : (st.counter + 1) % ULONG_MOD < cfg.Flag_Max_Send) :
    datagrams (iteration h cfg r st).events = [(next_payload h st, cfg.Flag_Padding)] := by
  unfold iteration body transmit report pace Step.andThen encode next_payload
  by_cases hs : r.sent_size < 0
  · by_cases he : r.errno = h.ENOBUFS ∨ r.errno = h.EINTR
    · by_cases hk : cfg.Flag_Count = 0
      · by_cases hf : cfg.Flag_Flood = true <;> simp [hg, hs, he, hk, hf, datagrams]
      · by_cases hm : (st.counter + 1) % ULONG_MOD % cfg.Flag_Count = 0
        · by_cases hf : cfg.Flag_Flood = true <;> simp [hg, hs, he, hk, hm, hf, datagrams]
        · by_cases hf : cfg.Flag_Flood = true <;> simp [hg, hs, he, hk, hm, hf, datagrams]
    · simp [hg, hs, he, datagrams]
  · by_cases hp : r.sent_size < (cfg.Flag_Padding : Int)
    · simp [hg, hs, hp, datagrams]
    · by_cases hk : cfg.Flag_Count = 0
      · simp [hg, hs, hp, hk, datagrams]
      · by_cases hm : (st.counter + 1) % ULONG_MOD % cfg.Flag_Count = 0
        · by_cases hf : cfg.Flag_Flood = true <;> simp [hg, hs, hp, hk, hm, hf, datagrams]
        · by_cases hf : cfg.Flag_Flood = true <;> simp [hg, hs, hp, hk, hm, hf, datagrams]

theorem iteration_guard_fails (h : Header) (cfg : Config) (r : SendResult) (st : State)
    (hg : ¬ (st.counter + 1) % ULONG_MOD < cfg.Flag_Max_Send) :
    iteration h cfg r st =
      { st := { st with counter := (st.counter + 1) % ULONG_MOD }
        events := [Event.close]
        exit := some Exit.success } := by
  simp [iteration, hg]

theorem iteration_fatal (h : Header) (cfg : Config) (r : SendResult) (st : State)
    (hg : (st.counter + 1) % ULONG_MOD < cfg.Flag_Max_Send) (hf : fatal h cfg r) :
    iteration h cfg r st =
      { st := { st with counter := (st.counter + 1) % ULONG_MOD, payload := next_payload h st }
        events := [Event.sendto (next_payload h st) cfg.Flag_Padding r.sent_size]
        exit := some (if r.sent_size < 0 then Exit.send_error
                      else Exit.short_write r.sent_size cfg.Flag_Padding) } := by
  unfold iteration body transmit report pace Step.andThen encode next_payload
  rcases hf with ⟨hs, he⟩ | ⟨h0, hp⟩
  · simp [hg, hs, he]
  · have hs : ¬ r.sent_size < 0 := by omega
    simp [hg, hs, hp]

theorem iteration_exit_io (h : Header) (cfg : Config) (r : SendResult) (st : State)
    (hg : (st.counter + 1) % ULONG_MOD < cfg.Flag_Max_Send) :
    (∃ e, (iteration h cfg r st).exit = some e ∧ e.status = some EX_IOERR) ↔ fatal h cfg r := by
  constructor
  · rintro ⟨e, he, hst⟩
    by_contra hnf
    by_cases hk : cfg.Flag_Count = 0
    · have : (iteration h cfg r st).exit = some Exit.sigfpe := by
        unfold fatal at hnf
        unfold iteration body transmit report pace Step.andThen encode
        by_cases hs : r.sent_size < 0
        · by_cases he : r.errno = h.ENOBUFS ∨ r.errno = h.EINTR
          · simp [hg, hs, he, hk]
          · exact absurd (Or.inl ⟨hs, he⟩) hnf
        · by_cases hp : r.sent_size < (cfg.Flag_Padding : Int)
          · exact absurd (Or.inr ⟨by omega, hp⟩) hnf
          · simp [hg, hs, hp, hk]
      rw [this] at he
      cases he
      simp [Exit.status] at hst
    · have := (iteration_exit_none h cfg r st).2 ⟨hg, hnf, hk⟩
      rw [this] at he
      cases he
  · intro hf
    rw [iteration_fatal h cfg r st hg hf]
    by_cases hs : r.sent_size < 0
    · exact ⟨Exit.send_error, by simp [hs], rfl⟩
    · exact ⟨Exit.short_write r.sent_size cfg.Flag_Padding, by simp [hs], rfl⟩

theorem state_after_some (h : Header) (cfg : Config) (env : Nat → SendResult) (n : Nat)
    (st : State) (ha : state_after h cfg env n = some st) :
    ∃ tr, after h cfg env n = some (st, tr) := by
  unfold state_after at ha
  cases hp : after h cfg env n with
  | none => simp [hp] at ha
  | some p =>
    obtain ⟨s, tr⟩ := p
    simp only [hp, Option.map_some', Option.some.injEq] at ha
    exact ⟨tr, by rw [ha]⟩

theorem body_counter (h : Header) (cfg : Config) (r : SendResult) (st : State) :
    (body h cfg r st).st.counter = st.counter := by
  unfold body transmit report pace Step.andThen encode
  by_cases hs : r.sent_size < 0
  · by_cases he : r.errno = h.ENOBUFS ∨ r.errno = h.EINTR
    · by_cases hk : cfg.Flag_Count = 0
      · simp [hs, he, hk]
      · by_cases hm : st.counter % cfg.Flag_Count = 0
        · simp [hs, he, hk, hm]
        · simp [hs, he, hk, hm]
    · simp [hs, he]
  · by_cases hp : r.sent_size < (cfg.Flag_Padding : Int)
    · simp [hs, hp]
    · by_cases hk : cfg.Flag_Count = 0
      · simp [hs, hp, hk]
      · by_cases hm : st.counter % cfg.Flag_Count = 0
        · simp [hs, hp, hk, hm]
        · simp [hs, hp, hk, hm]

theorem next_payload_take (h : Header) (st : State) (hP : 4 ≤ st.payload.length) :
    (next_payload h st).take 4 =
      uint32_bytes h.little_endian (htonl h.little_endian ((st.counter + 1) % ULONG_MOD)) := by
  unfold next_payload
  have hl := uint32_bytes_length h.little_endian
    (htonl h.little_endian ((st.counter + 1) % ULONG_MOD))
  have := memcpy_take st.payload _ (by rw [hl]; exact hP)
  rw [hl] at this
  exact this

/-- C2: in every pass of a run that enters the loop body, with a padding size
of at least 4, exactly one buffer is handed to `sendto`; its length argument
and its length are the padding size, its first four bytes read as a
big-endian number are the value of the counter in that pass (which is the
number of the pass), and every byte from index 4 on is 255. -/
theorem payload_wire_format (h : Header) (cfg : Config) (env : Nat → SendResult)
    (n : Nat) (st : State) (hv : cfg.valid) (hP : 4 ≤ cfg.Flag_Padding)
    (ha : state_after h cfg env n = some st)
    (hg : (st.counter + 1) % ULONG_MOD < cfg.Flag_Max_Send) :
    ∃ pl : List Nat,
      datagrams (iteration h cfg (env n) st).events = [(pl, cfg.Flag_Padding)] ∧
      pl.length = cfg.Flag_Padding ∧
      be_decode (pl.take 4) = (iteration h cfg (env n) st).st.counter ∧
      (iteration h cfg (env n) st).st.counter = n + 1 ∧
      ∀ i, 4 ≤ i → i < cfg.Flag_Padding → pl[i]? = some 255 := by
  obtain ⟨tr, ha⟩ := state_after_some h cfg env n st ha
  have inv := after_inv h cfg env hv.2.2.1 n st tr ha
  have hc := next_counter cfg hv.2.2.1 n st inv
  have hlt : n + 1 < UINT_MOD := by
    have := hv.2.2.1
    rw [hc] at hg
    omega
  refine ⟨next_payload h st, iteration_datagrams h cfg (env n) st hg, ?_, ?_, ?_, ?_⟩
  · rw [next_payload_length, inv.length_eq]
  · rw [iteration_counter, next_payload_take h st (by rw [inv.length_eq]; exact hP),
      be_decode_htonl, hc, Nat.mod_eq_of_lt hlt]
  · rw [iteration_counter, hc]
  · intro i h4 hi
    rw [next_payload_fill h st i h4]
    exact inv.fill i h4 hi

/-- C2, witness: the third pass of an all-success run with 8 bytes of payload. -/
theorem payload_wire_format_witness :
    ∃ pl : List Nat,
      datagrams (iteration sample_header sample_config (all_sent 2)
        ⟨2, 0, 1, [0, 0, 0, 2, 255, 255, 255, 255]⟩).events = [(pl, 8)] ∧
      pl.length = 8 ∧
      be_decode (pl.take 4) = (iteration sample_header sample_config (all_sent 2)
        ⟨2, 0, 1, [0, 0, 0, 2, 255, 255, 255, 255]⟩).st.counter ∧
      (iteration sample_header sample_config (all_sent 2)
        ⟨2, 0, 1, [0, 0, 0, 2, 255, 255, 255, 255]⟩).st.counter = 2 + 1 ∧
      ∀ i, 4 ≤ i → i < 8 → pl[i]? = some 255 :=
  payload_wire_format sample_header sample_config all_sent 2
    ⟨2, 0, 1, [0, 0, 0, 2, 255, 255, 255, 255]⟩ (by decide) (by decide) (by decide) (by decide)

/-- C6: the counter is 0 when the loop is entered. The pass that follows `n`
passes of a run, whatever happened in them, first sets the counter to
`n + 1` and then either runs the body of the loop on that value, when it is
below the limit, or ends the loop with it. The body leaves the counter as it
is, and with a padding of at least 4 the one datagram of a pass that enters
the body carries `n + 1`, so the first value sent is 1. -/
theorem counter_steps_by_one (h : Header) (cfg : Config) (env : Nat → SendResult)
    (hv : cfg.valid) (n : Nat) (st : State) (ha : state_after h cfg env n = some st) :
    (init h cfg).counter = 0 ∧
    st.counter = n ∧
    (iteration h cfg (env n) st).st.counter = n + 1 ∧
    (∀ r s, (body h cfg r s).st.counter = s.counter) ∧
    iteration h cfg (env n) st =
      (if n + 1 < cfg.Flag_Max_Send then body h cfg (env n) { st with counter := n + 1 }
       else { st := { st with counter := n + 1 }
              events := [Event.close]
              exit := some Exit.success }) ∧
    (n + 1 < cfg.Flag_Max_Send → 4 ≤ cfg.Flag_Padding →
      (datagrams (iteration h cfg (env n) st).events).map (fun d => be_decode (d.1.take 4)) =
        [n + 1]) := by
  obtain ⟨tr, ha⟩ := state_after_some h cfg env n st ha
  have inv := after_inv h cfg env hv.2.2.1 n st tr ha
  have hcn := next_counter cfg hv.2.2.1 n st inv
  refine ⟨rfl, inv.counter_eq, by rw [iteration_counter, hcn],
    fun r s => body_counter h cfg r s, ?_, ?_⟩
  · unfold iteration
    rw [hcn]
  · intro hg hP
    have hlt : n + 1 < UINT_MOD := by
      have := hv.2.2.1
      omega
    rw [iteration_datagrams h cfg (env n) st (by rw [hcn]; exact hg)]
    simp only [List.map_cons, List.map_nil]
    rw [next_payload_take h st (by rw [inv.length_eq]; exact hP), be_decode_htonl, hcn,
      Nat.mod_eq_of_lt hlt]

/-- C6, witness: the fourth pass of a run in which every send but the first
fails transiently works on 4 and sends 4. -/
theorem counter_steps_by_one_witness :
    (iteration sample_header sample_config (sent_then_nobufs 3)
      ⟨3, 0, 4, [0, 0, 0, 3, 255, 255, 255, 255]⟩).st.counter = 3 + 1 ∧
    iteration sample_header sample_config (sent_then_nobufs 3)
        ⟨3, 0, 4, [0, 0, 0, 3, 255, 255, 255, 255]⟩ =
      (if 3 + 1 < 100 then
        body sample_header sample_config (sent_then_nobufs 3)
          { (⟨3, 0, 4, [0, 0, 0, 3, 255, 255, 255, 255]⟩ : State) with counter := 3 + 1 }
       else { st := { (⟨3, 0, 4, [0, 0, 0, 3, 255, 255, 255, 255]⟩ : State) with counter := 3 + 1 }
              events := [Event.close]
              exit := some Exit.success }) ∧
    (datagrams (iteration sample_header sample_config (sent_then_nobufs 3)
        ⟨3, 0, 4, [0, 0, 0, 3, 255, 255, 255, 255]⟩).events).map
      (fun d => be_decode (d.1.take 4)) = [3 + 1] :=
  ⟨(counter_steps_by_one sample_header sample_config sent_then_nobufs (by decide) 3
      ⟨3, 0, 4, [0, 0, 0, 3, 255, 255, 255, 255]⟩ (by decide)).2.2.1,
   (counter_steps_by_one sample_header sample_config sent_then_nobufs (by decide) 3
      ⟨3, 0, 4, [0, 0, 0, 3, 255, 255, 255, 255]⟩ (by decide)).2.2.2.2.1,
   (counter_steps_by_one sample_header sample_config sent_then_nobufs (by decide) 3
      ⟨3, 0, 4, [0, 0, 0, 3, 255, 255, 255, 255]⟩ (by decide)).2.2.2.2.2
      (by decide) (by decide)⟩

theorem reports_append (xs ys : List Event) : reports (xs ++ ys) = reports xs ++ reports ys := by
  induction xs with
  | nil => rfl
  | cons e es ih => cases e <;> simp [reports, ih]

theorem to_long_ulong_sub (a b : Nat) (hb : b ≤ a) (ha : a < UINT_MOD) :
    to_long (ulong_sub a b) = (a : Int) - (b : Int) := by
  unfold to_long ulong_sub
  simp only [UINT_MOD, ULONG_MOD] at *
  have h1 : a % 2 ^ 64 = a := Nat.mod_eq_of_lt (by omega)
  have h2 : b % 2 ^ 64 = b := Nat.mod_eq_of_lt (by omega)
  have h3 : (a + 2 ^ 64 - b) % 2 ^ 64 = a - b := by omega
  rw [h1, h2, h3]
  have h4 : (a - b) % 2 ^ 64 = a - b := Nat.mod_eq_of_lt (by omega)
  rw [h4, if_pos (by omega)]
  omega

theorem iteration_reports (h : Header) (cfg : Config) (r : SendResult) (st : State)
    (hc : (iteration h cfg r st).exit = none) :
    reports (iteration h cfg r st).events =
      if (st.counter + 1) % ULONG_MOD % cfg.Flag_Count = 0 then
        [to_long (ulong_sub ((st.counter + 1) % ULONG_MOD) st.prev_sent_count)]
      else [] := by
  rw [iteration_events h cfg r st hc]
  by_cases ht : transient h r <;> by_cases hf : cfg.Flag_Flood = true <;>
    by_cases hm : (st.counter + 1) % ULONG_MOD % cfg.Flag_Count = 0 <;>
    simp [reports, ht, hf, hm]

/-- C4: in every pass of a run that enters the loop body and whose send is
not fatal, with a reporting interval `K > 0`: the pass emits a report line if
and only if `counter % K = 0`; the line is then the only one of the pass, its
delta is `counter - prev_sent_count` with the value `prev_sent_count` had
before the pass, and `prev_sent_count` becomes `counter`; otherwise
`prev_sent_count` keeps its value. -/
theorem report_every_interval (h : Header) (cfg : Config) (env : Nat → SendResult)
    (n : Nat) (st : State) (hv : cfg.valid) (hK : 0 < cfg.Flag_Count)
    (ha : state_after h cfg env n = some st)
    (hg : (st.counter + 1) % ULONG_MOD < cfg.Flag_Max_Send)
    (hnf : ¬ fatal h cfg (env n)) :
    (iteration h cfg (env n) st).st.counter = n + 1 ∧
    (reports (iteration h cfg (env n) st).events ≠ [] ↔ (n + 1) % cfg.Flag_Count = 0) ∧
    ((n + 1) % cfg.Flag_Count = 0 →
      reports (iteration h cfg (env n) st).events =
        [((n + 1 : Nat) : Int) - (st.prev_sent_count : Int)] ∧
      (iteration h cfg (env n) st).st.prev_sent_count = n + 1) ∧
    ((n + 1) % cfg.Flag_Count ≠ 0 →
      reports (iteration h cfg (env n) st).events = [] ∧
      (iteration h cfg (env n) st).st.prev_sent_count = st.prev_sent_count) := by
  obtain ⟨tr, ha⟩ := state_after_some h cfg env n st ha
  have inv := after_inv h cfg env hv.2.2.1 n st tr ha
  have hcn := next_counter cfg hv.2.2.1 n st inv
  have hc : (iteration h cfg (env n) st).exit = none :=
    (iteration_exit_none h cfg (env n) st).2 ⟨hg, hnf, by omega⟩
  have hlt : n + 1 < UINT_MOD := by
    have := hv.2.2.1
    rw [hcn] at hg
    omega
  have hd : to_long (ulong_sub (n + 1) st.prev_sent_count)
      = ((n + 1 : Nat) : Int) - (st.prev_sent_count : Int) :=
    to_long_ulong_sub (n + 1) st.prev_sent_count (by have := inv.prev_le; omega) hlt
  have hr := iteration_reports h cfg (env n) st hc
  have hs := iteration_st h cfg (env n) st hc
  rw [hcn] at hr hs
  rw [hd] at hr
  refine ⟨by rw [iteration_counter, hcn], ?_, ?_, ?_⟩
  · rw [hr]
    by_cases hm : (n + 1) % cfg.Flag_Count = 0 <;> simp [hm]
  · intro hm
    rw [hr, hs]
    simp [hm]
  · intro hm
    rw [hr, hs]
    simp [hm]

/-- C4, witness: the tenth pass of an all-success run with interval 10 emits
a report line with delta 10. -/
theorem report_every_interval_witness :
    (iteration sample_header sample_config (all_sent 9)
      ⟨9, 0, 1, [0, 0, 0, 9, 255, 255, 255, 255]⟩).st.counter = 9 + 1 ∧
    reports (iteration sample_header sample_config (all_sent 9)
      ⟨9, 0, 1, [0, 0, 0, 9, 255, 255, 255, 255]⟩).events = [((9 + 1 : Nat) : Int) - ((0 : Nat) : Int)] ∧
    (iteration sample_header sample_config (all_sent 9)
      ⟨9, 0, 1, [0, 0, 0, 9, 255, 255, 255, 255]⟩).st.prev_sent_count = 9 + 1 :=
  ⟨(report_every_interval sample_header sample_config all_sent 9
      ⟨9, 0, 1, [0, 0, 0, 9, 255, 255, 255, 255]⟩ (by decide) (by decide) (by decide)
      (by decide) (by decide)).1,
   (report_every_interval sample_header sample_config all_sent 9
      ⟨9, 0, 1, [0, 0, 0, 9, 255, 255, 255, 255]⟩ (by decide) (by decide) (by decide)
      (by decide) (by decide)).2.2.1 (by decide)⟩

/-- C5: in a pass that enters the loop body, the process ends with exit code
`EX_IOERR` if and only if `sendto` reports an error with an `errno` other than
`ENOBUFS` and `EINTR`, or reports no error and returns less than the payload
length. The pass then consists of the call of `sendto` alone: no report line,
no sleep, the backoff and `prev_sent_count` as they were; and the run ends
there, so that call is the last event of the process. -/
theorem fatal_send_ends_run (h : Header) (cfg : Config) (env : Nat → SendResult)
    (k : Nat) (st : State) (fuel : Nat)
    (hg : (st.counter + 1) % ULONG_MOD < cfg.Flag_Max_Send) :
    ((∃ e, (iteration h cfg (env k) st).exit = some e ∧ e.status = some EX_IOERR) ↔
      fatal h cfg (env k)) ∧
    (fatal h cfg (env k) →
      (iteration h cfg (env k) st).events =
        [Event.sendto (next_payload h st) cfg.Flag_Padding (env k).sent_size] ∧
      (iteration h cfg (env k) st).st.backoff = st.backoff ∧
      (iteration h cfg (env k) st).st.prev_sent_count = st.prev_sent_count ∧
      ∃ e, e.status = some EX_IOERR ∧
        run h cfg env (fuel + 1) k st =
          some { trace := [Event.sendto (next_payload h st) cfg.Flag_Padding (env k).sent_size]
                 final := (iteration h cfg (env k) st).st
                 exit := e }) := by
  refine ⟨iteration_exit_io h cfg (env k) st hg, ?_⟩
  intro hf
  have hi := iteration_fatal h cfg (env k) st hg hf
  refine ⟨by rw [hi], by rw [hi], by rw [hi], ?_⟩
  refine ⟨if (env k).sent_size < 0 then Exit.send_error
      else Exit.short_write (env k).sent_size cfg.Flag_Padding, ?_, ?_⟩
  · by_cases hs : (env k).sent_size < 0 <;> simp [hs, Exit.status]
  · simp only [run]
    rw [hi]

/-- C5, witness: a send of 8 bytes that returns 3 in the third pass. -/
theorem fatal_send_ends_run_witness :
    (iteration sample_header sample_config ⟨3, 0⟩
        ⟨2, 0, 1, [0, 0, 0, 2, 255, 255, 255, 255]⟩).events =
      [Event.sendto (next_payload sample_header ⟨2, 0, 1, [0, 0, 0, 2, 255, 255, 255, 255]⟩)
        8 3] ∧
    (iteration sample_header sample_config ⟨3, 0⟩
        ⟨2, 0, 1, [0, 0, 0, 2, 255, 255, 255, 255]⟩).st.backoff = 1 ∧
    (iteration sample_header sample_config ⟨3, 0⟩
        ⟨2, 0, 1, [0, 0, 0, 2, 255, 255, 255, 255]⟩).st.prev_sent_count = 0 ∧
    ∃ e, e.status = some EX_IOERR ∧
      run sample_header sample_config (fun _ => ⟨3, 0⟩) (0 + 1) 2
          ⟨2, 0, 1, [0, 0, 0, 2, 255, 255, 255, 255]⟩ =
        some { trace := [Event.sendto
                 (next_payload sample_header ⟨2, 0, 1, [0, 0, 0, 2, 255, 255, 255, 255]⟩) 8 3]
               final := (iteration sample_header sample_config ⟨3, 0⟩
                 ⟨2, 0, 1, [0, 0, 0, 2, 255, 255, 255, 255]⟩).st
               exit := e } :=
  (fatal_send_ends_run sample_header sample_config (fun _ => ⟨3, 0⟩) 2
    ⟨2, 0, 1, [0, 0, 0, 2, 255, 255, 255, 255]⟩ 0 (by decide)).2 (by decide)

theorem unpaced_append (xs ys : List Event) : unpaced (xs ++ ys) = unpaced xs ++ unpaced ys := by
  induction xs with
  | nil => rfl
  | cons e es ih => cases e <;> simp [unpaced, ih]

theorem delay_by_with_flood (h : Header) (cfg : Config) (b : Bool) :
    delay_by h (with_flood cfg b) = delay_by h cfg := rfl

theorem iteration_flood (h : Header) (cfg : Config) (r : SendResult) (st : State) :
    (iteration h (with_flood cfg true) r st).st = (iteration h (with_flood cfg false) r st).st ∧
    (iteration h (with_flood cfg true) r st).exit =
      (iteration h (with_flood cfg false) r st).exit ∧
    (iteration h (with_flood cfg true) r st).events =
      unpaced (iteration h (with_flood cfg false) r st).events := by
  unfold iteration body transmit report pace Step.andThen encode with_flood
  by_cases hg : (st.counter + 1) % ULONG_MOD < cfg.Flag_Max_Send
  · by_cases hs : r.sent_size < 0
    · by_cases he : r.errno = h.ENOBUFS ∨ r.errno = h.EINTR
      · by_cases hk : cfg.Flag_Count = 0
        · simp [hg, hs, he, hk, unpaced]
        · by_cases hm : (st.counter + 1) % ULONG_MOD % cfg.Flag_Count = 0
          · simp [hg, hs, he, hk, hm, unpaced]
          · simp [hg, hs, he, hk, hm, unpaced]
      · simp [hg, hs, he, unpaced]
    · by_cases hp : r.sent_size < (cfg.Flag_Padding : Int)
      · simp [hg, hs, hp, unpaced]
      · by_cases hk : cfg.Flag_Count = 0
        · simp [hg, hs, hp, hk, unpaced]
        · by_cases hm : (st.counter + 1) % ULONG_MOD % cfg.Flag_Count = 0
          · simp [hg, hs, hp, hk, hm, unpaced]
          · simp [hg, hs, hp, hk, hm, unpaced]
  · simp [hg, unpaced]

theorem iteration_flood_on (h : Header) (cfg : Config) (r : SendResult) (st : State) :
    pacing_sleeps (iteration h (with_flood cfg true) r st).events = [] ∧
    warnings (iteration h (with_flood cfg true) r st).events = [] := by
  unfold iteration body transmit report pace Step.andThen encode with_flood
  by_cases hg : (st.counter + 1) % ULONG_MOD < cfg.Flag_Max_Send
  · by_cases hs : r.sent_size < 0
    · by_cases he : r.errno = h.ENOBUFS ∨ r.errno = h.EINTR
      · by_cases hk : cfg.Flag_Count = 0
        · simp [hg, hs, he, hk, pacing_sleeps, warnings]
        · by_cases hm : (st.counter + 1) % ULONG_MOD % cfg.Flag_Count = 0
          · simp [hg, hs, he, hk, hm, pacing_sleeps, warnings]
          · simp [hg, hs, he, hk, hm, pacing_sleeps, warnings]
      · simp [hg, hs, he, pacing_sleeps, warnings]
    · by_cases hp : r.sent_size < (cfg.Flag_Padding : Int)
      · simp [hg, hs, hp, pacing_sleeps, warnings]
      · by_cases hk : cfg.Flag_Count = 0
        · simp [hg, hs, hp, hk, pacing_sleeps, warnings]
        · by_cases hm : (st.counter + 1) % ULONG_MOD % cfg.Flag_Count = 0
          · simp [hg, hs, hp, hk, hm, pacing_sleeps, warnings]
          · simp [hg, hs, hp, hk, hm, pacing_sleeps, warnings]
  · simp [hg, pacing_sleeps, warnings]

theorem iteration_flood_off (h : Header) (cfg : Config) (r : SendResult) (st : State) :
    pacing_sleeps (iteration h (with_flood cfg false) r st).events =
      (if (iteration h (with_flood cfg false) r st).exit = none then [delay_by h cfg] else []) ∧
    ((iteration h (with_flood cfg false) r st).exit = none →
      (iteration h (with_flood cfg false) r st).events.getLast? =
        some (Event.nanosleep_delay (delay_by h cfg))) := by
  unfold iteration body transmit report pace Step.andThen encode
  have hd : delay_by h (with_flood cfg false) = delay_by h cfg := rfl
  have hF : (with_flood cfg false).Flag_Flood = false := rfl
  have hL : (with_flood cfg false).Flag_Max_Send = cfg.Flag_Max_Send := rfl
  have hK : (with_flood cfg false).Flag_Count = cfg.Flag_Count := rfl
  have hP : (with_flood cfg false).Flag_Padding = cfg.Flag_Padding := rfl
  rw [hd, hF, hL, hK, hP]
  by_cases hg : (st.counter + 1) % ULONG_MOD < cfg.Flag_Max_Send
  · by_cases hs : r.sent_size < 0
    · by_cases he : r.errno = h.ENOBUFS ∨ r.errno = h.EINTR
      · by_cases hk : cfg.Flag_Count = 0
        · simp [hg, hs, he, hk, pacing_sleeps]
        · by_cases hm : (st.counter + 1) % ULONG_MOD % cfg.Flag_Count = 0
          · simp [hg, hs, he, hk, hm, pacing_sleeps]
          · simp [hg, hs, he, hk, hm, pacing_sleeps]
      · simp [hg, hs, he, pacing_sleeps]
    · by_cases hp : r.sent_size < (cfg.Flag_Padding : Int)
      · simp [hg, hs, hp, pacing_sleeps]
      · by_cases hk : cfg.Flag_Count = 0
        · simp [hg, hs, hp, hk, pacing_sleeps]
        · by_cases hm : (st.counter + 1) % ULONG_MOD % cfg.Flag_Count = 0
          · simp [hg, hs, hp, hk, hm, pacing_sleeps]
          · simp [hg, hs, hp, hk, hm, pacing_sleeps]
  · simp [hg, pacing_sleeps]

theorem run_flood (h : Header) (cfg : Config) (env : Nat → SendResult) :
    ∀ (fuel k : Nat) (st : State),
      (run h (with_flood cfg true) env fuel k st).map (fun r => (r.trace, r.final, r.exit)) =
      (run h (with_flood cfg false) env fuel k st).map
        (fun r => (unpaced r.trace, r.final, r.exit)) := by
  intro fuel
  induction fuel with
  | zero => intro k st; rfl
  | succ fuel ih =>
    intro k st
    obtain ⟨hst, hex, hev⟩ := iteration_flood h cfg (env k) st
    simp only [run]
    rw [← hex]
    cases hx : (iteration h (with_flood cfg true) (env k) st).exit with
    | some e => simp [hst, hev]
    | none =>
      simp only [Option.map_map]
      have := ih (k + 1) (iteration h (with_flood cfg true) (env k) st).st
      rw [← hst]
      cases h1 : run h (with_flood cfg true) env fuel (k + 1)
          (iteration h (with_flood cfg true) (env k) st).st <;>
        cases h2 : run h (with_flood cfg false) env fuel (k + 1)
          (iteration h (with_flood cfg true) (env k) st).st <;>
        simp [h1, h2] at this ⊢
      obtain ⟨ht, hf, he⟩ := this
      simp [unpaced_append, hev, ht, hf, he]

theorem state_after_flood (h : Header) (cfg : Config) (env : Nat → SendResult) :
    ∀ n, state_after h (with_flood cfg true) env n = state_after h (with_flood cfg false) env n := by
  intro n
  induction n with
  | zero => rfl
  | succ n ih =>
    unfold state_after at ih ⊢
    simp only [after]
    cases h1 : after h (with_flood cfg true) env n <;>
      cases h2 : after h (with_flood cfg false) env n <;> simp [h1, h2] at ih ⊢
    rename_i p q
    obtain ⟨hst, hex, _⟩ := iteration_flood h cfg (env n) p.1
    rw [← ih, ← hex]
    cases hx : (iteration h (with_flood cfg true) (env n) p.1).exit with
    | some e => simp
    | none => simp [hst]

/-- C7: for every configuration and every sequence of send outcomes, the run
with the flood flag on ends the same way and with the same globals as the run
with the flag off, and its trace is the trace of the other run with the
pacing sleeps and retry warnings taken out, so that datagrams, backoff sleeps
and report lines agree in value and order; the globals before every pass
agree as well. With the flag on no pass makes a pacing sleep or prints a
retry warning; with the flag off a pass that lets the loop go on makes
exactly one pacing sleep, of `delay_by`, as its last action, and a pass that
ends the process makes none. -/
theorem flood_only_drops_pacing (h : Header) (cfg : Config) (env : Nat → SendResult) :
    (main h (with_flood cfg true) env).map (fun r => (r.trace, r.final, r.exit)) =
      (main h (with_flood cfg false) env).map (fun r => (unpaced r.trace, r.final, r.exit)) ∧
    (∀ n, state_after h (with_flood cfg true) env n =
      state_after h (with_flood cfg false) env n) ∧
    (∀ r st, pacing_sleeps (iteration h (with_flood cfg true) r st).events = [] ∧
      warnings (iteration h (with_flood cfg true) r st).events = []) ∧
    (∀ r st, (iteration h (with_flood cfg false) r st).exit = none →
      pacing_sleeps (iteration h (with_flood cfg false) r st).events = [delay_by h cfg] ∧
      (iteration h (with_flood cfg false) r st).events.getLast? =
        some (Event.nanosleep_delay (delay_by h cfg))) ∧
    (∀ r st, (iteration h (with_flood cfg false) r st).exit ≠ none →
      pacing_sleeps (iteration h (with_flood cfg false) r st).events = []) := by
  refine ⟨run_flood h cfg env _ 0 _, state_after_flood h cfg env,
    iteration_flood_on h cfg, ?_, ?_⟩
  · intro r st hx
    obtain ⟨hp, hl⟩ := iteration_flood_off h cfg r st
    exact ⟨by rw [hp, if_pos hx], hl hx⟩
  · intro r st hx
    rw [(iteration_flood_off h cfg r st).1, if_neg hx]

/-- C7, witness: a transient failure in the second pass of a run with the
flood flag off. -/
theorem flood_only_drops_pacing_witness :
    pacing_sleeps (iteration sample_header (with_flood sample_config false) (sent_then_nobufs 1)
        ⟨1, 0, 1, [0, 0, 0, 1, 255, 255, 255, 255]⟩).events =
      [delay_by sample_header sample_config] ∧
    (iteration sample_header (with_flood sample_config false) (sent_then_nobufs 1)
        ⟨1, 0, 1, [0, 0, 0, 1, 255, 255, 255, 255]⟩).events.getLast? =
      some (Event.nanosleep_delay (delay_by sample_header sample_config)) :=
  (flood_only_drops_pacing sample_header sample_config sent_then_nobufs).2.2.2.1
    (sent_then_nobufs 1) ⟨1, 0, 1, [0, 0, 0, 1, 255, 255, 255, 255]⟩ (by decide)

theorem datagrams_append (xs ys : List Event) :
    datagrams (xs ++ ys) = datagrams xs ++ datagrams ys := by
  induction xs with
  | nil => rfl
  | cons e es ih => cases e <;> simp [datagrams, ih]

theorem run_after (h : Header) (cfg : Config) (env : Nat → SendResult) :
    ∀ (n : Nat) (st : State) (tr : List Event), after h cfg env n = some (st, tr) →
      ∀ fuel, run h cfg env (fuel + n) 0 (init h cfg) =
        (run h cfg env fuel n st).map (fun r => { r with trace := tr ++ r.trace }) := by
  intro n
  induction n with
  | zero =>
    intro st tr ha fuel
    simp only [after, Option.some.injEq, Prod.mk.injEq] at ha
    obtain ⟨rfl, rfl⟩ := ha
    simp only [Nat.add_zero]
    cases run h cfg env fuel 0 (init h cfg) <;> simp
  | succ n ih =>
    intro st tr ha fuel
    obtain ⟨st0, tr0, ha0, hc, rfl, rfl⟩ := after_succ_some h cfg env n st tr ha
    have hstep := ih st0 tr0 ha0 (fuel + 1)
    have hf : fuel + (n + 1) = fuel + 1 + n := by omega
    rw [hf, hstep]
    simp only [run, hc, Option.map_map]
    cases run h cfg env fuel (n + 1) (iteration h cfg (env n) st0).st <;> simp

theorem after_datagrams (h : Header) (cfg : Config) (env : Nat → SendResult) :
    ∀ (n : Nat) (st : State) (tr : List Event), after h cfg env n = some (st, tr) →
      (datagrams tr).length = n := by
  intro n
  induction n with
  | zero =>
    intro st tr ha
    simp only [after, Option.some.injEq, Prod.mk.injEq] at ha
    obtain ⟨_, rfl⟩ := ha
    rfl
  | succ n ih =>
    intro st tr ha
    obtain ⟨st0, tr0, ha0, hc, rfl, rfl⟩ := after_succ_some h cfg env n st tr ha
    have hg := ((iteration_exit_none h cfg (env n) st0).1 hc).1
    rw [datagrams_append, List.length_append, ih st0 tr0 ha0,
      iteration_datagrams h cfg (env n) st0 hg]
    rfl

theorem after_exists (h : Header) (cfg : Config) (env : Nat → SendResult)
    (hv : cfg.valid) (hK : cfg.Flag_Count ≠ 0) (hnf : ∀ k, ¬ fatal h cfg (env k)) :
    ∀ n, (n = 0 ∨ n < cfg.Flag_Max_Send) → ∃ st tr, after h cfg env n = some (st, tr) := by
  intro n
  induction n with
  | zero => intro _; exact ⟨init h cfg, [], rfl⟩
  | succ n ih =>
    intro hn
    have hlt : n + 1 < cfg.Flag_Max_Send := by omega
    obtain ⟨st, tr, ha⟩ := ih (Or.inr (by omega))
    have inv := after_inv h cfg env hv.2.2.1 n st tr ha
    have hc : (iteration h cfg (env n) st).exit = none :=
      (iteration_exit_none h cfg (env n) st).2
        ⟨by rw [next_counter cfg hv.2.2.1 n st inv]; exact hlt, hnf n, hK⟩
    exact ⟨_, _, after_succ_of_continue h cfg env n st tr ha hc⟩

/-- C10, as the code has it: with flags in the range of `unsigned int`, a
reporting interval other than 0 and no fatal send outcome, whatever the mix
of successes and transient failures, the loop ends after finitely many
passes (any fuel above the limit `L` gives the same finished run), the
process closes the socket as its last action and exits with status 0, every
value of the counter below the final one has had its datagram handed to
`sendto`, transient failure or not, and the final value of the counter is
`L` when `L ≥ 1` and 1 when `L = 0`. -/
theorem loop_ends_at_limit (h : Header) (cfg : Config) (env : Nat → SendResult)
    (hv : cfg.valid) (hK : cfg.Flag_Count ≠ 0) (hnf : ∀ k, ¬ fatal h cfg (env k)) :
    ∃ r, main h cfg env = some r ∧
      (∀ fuel, cfg.Flag_Max_Send < fuel → run h cfg env fuel 0 (init h cfg) = some r) ∧
      r.exit = Exit.success ∧ r.exit.status = some 0 ∧
      r.final.counter = max cfg.Flag_Max_Send 1 ∧
      (datagrams r.trace).length + 1 = r.final.counter ∧
      r.trace.getLast? = some Event.close := by
  obtain ⟨st, tr, ha⟩ := after_exists h cfg env hv hK hnf (cfg.Flag_Max_Send - 1) (by omega)
  have inv := after_inv h cfg env hv.2.2.1 _ st tr ha
  have hcn := next_counter cfg hv.2.2.1 _ st inv
  have hg : ¬ (st.counter + 1) % ULONG_MOD < cfg.Flag_Max_Send := by
    rw [hcn]; omega
  have hi := iteration_guard_fails h cfg (env (cfg.Flag_Max_Send - 1)) st hg
  have hrun : ∀ fuel, cfg.Flag_Max_Send < fuel → run h cfg env fuel 0 (init h cfg) =
      some { trace := tr ++ [Event.close]
             final := { st with counter := (st.counter + 1) % ULONG_MOD }
             exit := Exit.success } := by
    intro fuel hf
    obtain ⟨f, rfl⟩ : ∃ f, fuel = (f + 1) + (cfg.Flag_Max_Send - 1) :=
      ⟨fuel - 1 - (cfg.Flag_Max_Send - 1), by omega⟩
    rw [run_after h cfg env _ st tr ha (f + 1)]
    simp only [run]
    rw [hi]
    rfl
  refine ⟨_, hrun _ (Nat.lt_succ_self _), hrun, rfl, rfl, ?_, ?_, ?_⟩
  · show (st.counter + 1) % ULONG_MOD = _
    rw [hcn]; omega
  · show (datagrams (tr ++ [Event.close])).length + 1 = (st.counter + 1) % ULONG_MOD
    rw [datagrams_append, List.length_append, after_datagrams h cfg env _ st tr ha, hcn]
    rfl
  · show (tr ++ [Event.close]).getLast? = _
    simp

/-- C10, witness: limit 100 with every send but the first failing transiently. -/
theorem loop_ends_at_limit_witness :
    ∃ r, main sample_header sample_config sent_then_nobufs = some r ∧
      (∀ fuel, 100 < fuel →
        run sample_header sample_config sent_then_nobufs fuel 0
          (init sample_header sample_config) = some r) ∧
      r.exit = Exit.success ∧ r.exit.status = some 0 ∧
      r.final.counter = max 100 1 ∧
      (datagrams r.trace).length + 1 = r.final.counter ∧
      r.trace.getLast? = some Event.close :=
  loop_ends_at_limit sample_header sample_config sent_then_nobufs (by decide) (by decide)
    (by intro k; unfold sent_then_nobufs; by_cases hk : k = 0 <;> simp [hk] <;> decide)

/-- C10, counterexample: with a send limit of 0 the process exits with
success, and the final value of the counter is 1, not the limit. -/
theorem limit_zero_ends_at_one :
    main sample_header zero_limit_config all_sent =
      some { trace := [Event.close]
             final := ⟨1, 0, 1, [255, 255, 255, 255, 255, 255, 255, 255]⟩
             exit := Exit.success } ∧
    (1 : Nat) ≠ zero_limit_config.Flag_Max_Send := by
  decide

theorem packets_sent_append (xs ys : List Event) :
    packets_sent (xs ++ ys) = packets_sent xs + packets_sent ys := by
  induction xs with
  | nil => simp [packets_sent]
  | cons e es ih => cases e <;> simp [packets_sent, ih, Nat.add_assoc]

theorem iteration_packets_sent (h : Header) (cfg : Config) (r : SendResult) (st : State)
    (hc : (iteration h cfg r st).exit = none) :
    packets_sent (iteration h cfg r st).events + (if transient h r then 1 else 0) = 1 := by
  obtain ⟨_, hf, _⟩ := (iteration_exit_none h cfg r st).1 hc
  rw [iteration_events h cfg r st hc]
  unfold fatal at hf
  by_cases hs : r.sent_size < 0
  · have ht : transient h r := ⟨hs, by_contra (fun he => hf (Or.inl ⟨hs, he⟩))⟩
    have hs2 : ¬ (0 ≤ r.sent_size) := by omega
    by_cases hfl : cfg.Flag_Flood = true <;>
      by_cases hm : (st.counter + 1) % ULONG_MOD % cfg.Flag_Count = 0 <;>
      simp [packets_sent, ht, hs2, hfl, hm]
  · have ht : ¬ transient h r := fun ht => hs ht.1
    have hs2 : 0 ≤ r.sent_size := by omega
    by_cases hfl : cfg.Flag_Flood = true <;>
      by_cases hm : (st.counter + 1) % ULONG_MOD % cfg.Flag_Count = 0 <;>
      simp [packets_sent, ht, hs2, hfl, hm]

theorem after_packets_sent (h : Header) (cfg : Config) (env : Nat → SendResult) :
    ∀ (n : Nat) (st : State) (tr : List Event), after h cfg env n = some (st, tr) →
      packets_sent tr + transient_count h env n = n := by
  intro n
  induction n with
  | zero =>
    intro st tr ha
    simp only [after, Option.some.injEq, Prod.mk.injEq] at ha
    obtain ⟨_, rfl⟩ := ha
    rfl
  | succ n ih =>
    intro st tr ha
    obtain ⟨st0, tr0, ha0, hc, rfl, rfl⟩ := after_succ_some h cfg env n st tr ha
    have h1 := ih st0 tr0 ha0
    have h2 := iteration_packets_sent h cfg (env n) st0 hc
    rw [packets_sent_append]
    simp only [transient_count]
    omega

theorem to_long_small (a : Nat) (ha : a < UINT_MOD) : to_long a = (a : Int) := by
  unfold to_long
  simp only [UINT_MOD, ULONG_MOD] at *
  have h1 : a % 2 ^ 64 = a := Nat.mod_eq_of_lt (by omega)
  rw [h1, if_pos (by omega)]

/-- C8, as the code has it: whatever the globals are when the signal
arrives, `catch_intr` emits one report line with delta
`counter - prev_sent_count`, ends the process with status 1 and the counter
as the packet total of its message, and leaves the globals as they are. When
the signal arrives between two passes, after `n` complete passes, the delta
is `n - prev_sent_count`, the report line is the last event, and the total is
`n`: the number of datagrams handed to `sendto`, which is the number of
datagrams sent plus the number of transient failures. When it arrives in the
next pass after the increment of the counter, delta and total are one more. -/
theorem sigint_reports_counter (h : Header) (cfg : Config) (env : Nat → SendResult)
    (n : Nat) (st : State) (tr : List Event) (hv : cfg.valid)
    (ha : after h cfg env n = some (st, tr)) :
    (∀ s : State, catch_intr s =
      { st := s
        events := [Event.report (to_long (ulong_sub s.counter s.prev_sent_count))]
        exit := some (Exit.sigint (to_long s.counter)) }) ∧
    interrupted h cfg env n =
      some { trace := tr ++ [Event.report ((n : Int) - (st.prev_sent_count : Int))]
             final := st
             exit := Exit.sigint (n : Int) } ∧
    interrupted_after_increment h cfg env n =
      some { trace := tr ++ [Event.report (((n + 1 : Nat) : Int) - (st.prev_sent_count : Int))]
             final := { st with counter := n + 1 }
             exit := Exit.sigint ((n + 1 : Nat) : Int) } ∧
    (∀ t : Int, (Exit.sigint t).status = some 1) ∧
    (datagrams tr).length = n ∧
    packets_sent tr + transient_count h env n = n := by
  have inv := after_inv h cfg env hv.2.2.1 n st tr ha
  have hcn := next_counter cfg hv.2.2.1 n st inv
  have hlt : n + 1 < UINT_MOD ∨ n = 0 := by
    rcases inv.bound with h0 | h1
    · exact Or.inr h0
    · have := hv.2.2.1; exact Or.inl (by omega)
  have hlt1 : n + 1 < UINT_MOD := by
    rcases hlt with h1 | h0
    · exact h1
    · rw [h0]; norm_num [UINT_MOD]
  have hlt0 : n < UINT_MOD := by omega
  refine ⟨fun s => rfl, ?_, ?_, fun t => rfl, after_datagrams h cfg env n st tr ha,
    after_packets_sent h cfg env n st tr ha⟩
  · simp only [interrupted, ha, catch_intr]
    rw [inv.counter_eq, to_long_small n hlt0, to_long_ulong_sub n _ inv.prev_le hlt0]
  · simp only [interrupted_after_increment, ha, catch_intr]
    rw [hcn, to_long_small (n + 1) hlt1,
      to_long_ulong_sub (n + 1) _ (by have := inv.prev_le; omega) hlt1]

/-- C8, witness: the signal arrives after two passes, the first of which
failed with `ENOBUFS`. -/
theorem sigint_reports_counter_witness :
    interrupted sample_header sample_config nobufs_then_sent 2 =
      some { trace :=
               [Event.sendto [0, 0, 0, 1, 255, 255, 255, 255] 8 (-1), Event.warn_retry 105,
                Event.nanosleep_backoff ⟨0, 1⟩, Event.nanosleep_delay ⟨0, 5000⟩,
                Event.sendto [0, 0, 0, 2, 255, 255, 255, 255] 8 8,
                Event.nanosleep_delay ⟨0, 5000⟩] ++
               [Event.report (((2 : Nat) : Int) - ((0 : Nat) : Int))]
             final := ⟨2, 0, 1, [0, 0, 0, 2, 255, 255, 255, 255]⟩
             exit := Exit.sigint ((2 : Nat) : Int) } :=
  (sigint_reports_counter sample_header sample_config nobufs_then_sent 2
    ⟨2, 0, 1, [0, 0, 0, 2, 255, 255, 255, 255]⟩
    [Event.sendto [0, 0, 0, 1, 255, 255, 255, 255] 8 (-1), Event.warn_retry 105,
     Event.nanosleep_backoff ⟨0, 1⟩, Event.nanosleep_delay ⟨0, 5000⟩,
     Event.sendto [0, 0, 0, 2, 255, 255, 255, 255] 8 8,
     Event.nanosleep_delay ⟨0, 5000⟩] (by decide) (by decide)).2.1

/-- C8, counterexample: in a run whose sends all succeed, a signal that
arrives in the third pass after the increment of the counter finds two
datagrams handed to `sendto`, both sent, and the message of `catch_intr`
gives 3 as the packet total. In a run whose first send fails with `ENOBUFS`
and whose second send succeeds, a signal that arrives after the second pass
finds one packet sent, and the message gives 2. -/
theorem sigint_total_is_not_packets_sent :
    (interrupted_after_increment sample_header sample_config all_sent 2).map
      (fun r => ((datagrams r.trace).length, packets_sent r.trace, r.exit)) =
        some (2, 2, Exit.sigint 3) ∧
    (interrupted sample_header sample_config nobufs_then_sent 2).map
      (fun r => (packets_sent r.trace, r.exit)) = some (1, Exit.sigint 2) ∧
    Exit.sigint 3 ≠ Exit.sigint ((2 : Nat) : Int) ∧
    Exit.sigint 2 ≠ Exit.sigint ((1 : Nat) : Int) := by
  decide

/-- C3, on the failing input: limit 100 and interval 10 with every send
successful give nine report lines, each with delta 10, and 99 datagrams
carrying the sequence numbers 1 to 99 in order. -/
theorem limit_hundred_gives_nine_reports :
    (main sample_header sample_config all_sent).map
      (fun r => (reports r.trace, (datagrams r.trace).map (fun d => be_decode (d.1.take 4)),
        r.final.counter, r.exit)) =
      some ([10, 10, 10, 10, 10, 10, 10, 10, 10], List.range' 1 99, 100, Exit.success) := by
  decide

/-- C9, on the failing input: with the units as they are named and the
nanosecond flag off, a delay value `d` becomes the pair
`(d / 1000, (d % 1000) * 1000)`; a delay value of 1 (documented as
milliseconds) becomes (0, 1000), which is 1000 nanoseconds and not the
1000000 of one millisecond. -/
theorem delay_of_one_is_a_microsecond (D M ENOBUFS EINTR K L P d : Nat) (le flood : Bool) :
    delay_by ⟨D, M, 1000, 1000, 1000000, ENOBUFS, EINTR, le⟩ ⟨K, d, L, P, flood, false⟩ =
      ⟨d / 1000, d % 1000 * 1000⟩ ∧
    delay_by ⟨D, M, 1000, 1000, 1000000, ENOBUFS, EINTR, le⟩ ⟨K, 1, L, P, flood, false⟩ =
      ⟨0, 1000⟩ ∧
    (delay_by ⟨D, M, 1000, 1000, 1000000, ENOBUFS, EINTR, le⟩ ⟨K, 1, L, P, flood, false⟩).tv_sec
        * 10 ^ 9 +
      (delay_by ⟨D, M, 1000, 1000, 1000000, ENOBUFS, EINTR, le⟩
        ⟨K, 1, L, P, flood, false⟩).tv_nsec ≠ 1 * 10 ^ 6 := by
  have hd : ∀ x : Nat,
      delay_by ⟨D, M, 1000, 1000, 1000000, ENOBUFS, EINTR, le⟩ ⟨K, x, L, P, flood, false⟩ =
        ⟨x / 1000, x % 1000 * 1000⟩ := by
    intro x
    simp only [delay_by, time_units, time_units_to_usec, UINT_MOD, Bool.false_eq_true, if_false]
    congr 1
    apply Nat.mod_eq_of_lt
    have := Nat.mod_lt x (show 0 < 1000 by norm_num)
    omega
  refine ⟨hd d, ?_, ?_⟩
  · rw [hd 1]
  · rw [hd 1]
    decide

/-! ## Further facts about whole runs -/

theorem succ_div_of_mod_zero (n K : Nat) (hK : K ≠ 0) (hm : (n + 1) % K = 0) :
    (n + 1) / K = n / K + 1 ∧ (n / K + 1) * K = n + 1 := by
  have h1 : K * ((n + 1) / K) = n + 1 := Nat.mul_div_cancel' (Nat.dvd_of_mod_eq_zero hm)
  have hpos : 0 < K := Nat.pos_of_ne_zero hK
  have h2 : n / K < (n + 1) / K := by
    rw [Nat.div_lt_iff_lt_mul hpos]
    calc n < n + 1 := Nat.lt_succ_self n
      _ = (n + 1) / K * K := by rw [Nat.mul_comm]; exact h1.symm
  have h3 : (n + 1) / K ≤ n / K + 1 := by
    have : (n + 1) / K ≤ (n + K) / K := Nat.div_le_div_right (by omega)
    rwa [Nat.add_div_right n hpos] at this
  have h4 : (n + 1) / K = n / K + 1 := by omega
  exact ⟨h4, by rw [← h4, Nat.mul_comm]; exact h1⟩

theorem succ_div_of_mod_ne_zero (n K : Nat) (hm : (n + 1) % K ≠ 0) :
    (n + 1) / K = n / K := by
  rw [Nat.succ_div]
  have : ¬ K ∣ n + 1 := fun hd => hm (Nat.mod_eq_zero_of_dvd hd)
  simp [this]

/-- After `n` passes of a run, one report line has been emitted for every
full interval, each with the interval as its delta. -/
theorem after_reports (h : Header) (cfg : Config) (env : Nat → SendResult)
    (hv : cfg.valid) (hK : cfg.Flag_Count ≠ 0) :
    ∀ (n : Nat) (st : State) (tr : List Event), after h cfg env n = some (st, tr) →
      reports tr = List.replicate (n / cfg.Flag_Count) (cfg.Flag_Count : Int) ∧
      st.prev_sent_count = n / cfg.Flag_Count * cfg.Flag_Count := by
  intro n
  induction n with
  | zero =>
    intro st tr ha
    simp only [after, Option.some.injEq, Prod.mk.injEq] at ha
    obtain ⟨rfl, rfl⟩ := ha
    simp [reports, init]
  | succ n ih =>
    intro st tr ha
    obtain ⟨st0, tr0, ha0, hc, rfl, rfl⟩ := after_succ_some h cfg env n st tr ha
    obtain ⟨hr0, hp0⟩ := ih st0 tr0 ha0
    have inv := after_inv h cfg env hv.2.2.1 n st0 tr0 ha0
    have hcn := next_counter cfg hv.2.2.1 n st0 inv
    have hg := ((iteration_exit_none h cfg (env n) st0).1 hc).1
    have hlt : n + 1 < UINT_MOD := by
      have := hv.2.2.1
      rw [hcn] at hg
      omega
    have hr := iteration_reports h cfg (env n) st0 hc
    have hs := iteration_st h cfg (env n) st0 hc
    rw [hcn] at hr hs
    rw [to_long_ulong_sub (n + 1) _ (by have := inv.prev_le; omega) hlt] at hr
    rw [reports_append, hr, hr0, hs]
    by_cases hm : (n + 1) % cfg.Flag_Count = 0
    · obtain ⟨hdiv, hmul⟩ := succ_div_of_mod_zero n cfg.Flag_Count hK hm
      simp only [hm, if_true]
      rw [hdiv, List.replicate_succ', hmul, hp0]
      refine ⟨?_, rfl⟩
      congr 2
      have : ((n + 1 : Nat) : Int) = (((n / cfg.Flag_Count + 1) * cfg.Flag_Count : Nat) : Int) := by
        rw [hmul]
      rw [this]
      push_cast
      ring
    · have hdiv := succ_div_of_mod_ne_zero n cfg.Flag_Count hm
      simp only [hm, if_false, List.append_nil]
      rw [hdiv]
      exact ⟨rfl, hp0⟩

/-- The report lines of a run without fatal send outcome: with limit `L` and
interval `K` there are `(L - 1) / K` of them, each with delta `K`. When `K`
divides `L ≥ 1` this is `L / K - 1`. -/
theorem reports_of_run (h : Header) (cfg : Config) (env : Nat → SendResult)
    (hv : cfg.valid) (hK : cfg.Flag_Count ≠ 0) (hnf : ∀ k, ¬ fatal h cfg (env k)) :
    ∃ r, main h cfg env = some r ∧
      reports r.trace =
        List.replicate ((cfg.Flag_Max_Send - 1) / cfg.Flag_Count) (cfg.Flag_Count : Int) ∧
      (cfg.Flag_Count ∣ cfg.Flag_Max_Send → 1 ≤ cfg.Flag_Max_Send →
        (cfg.Flag_Max_Send - 1) / cfg.Flag_Count = cfg.Flag_Max_Send / cfg.Flag_Count - 1) := by
  obtain ⟨st, tr, ha⟩ := after_exists h cfg env hv hK hnf (cfg.Flag_Max_Send - 1) (by omega)
  have inv := after_inv h cfg env hv.2.2.1 _ st tr ha
  have hcn := next_counter cfg hv.2.2.1 _ st inv
  have hg : ¬ (st.counter + 1) % ULONG_MOD < cfg.Flag_Max_Send := by
    rw [hcn]; omega
  have hi := iteration_guard_fails h cfg (env (cfg.Flag_Max_Send - 1)) st hg
  have hrun : main h cfg env =
      some { trace := tr ++ [Event.close]
             final := { st with counter := (st.counter + 1) % ULONG_MOD }
             exit := Exit.success } := by
    unfold main
    have hf : cfg.Flag_Max_Send + 1 = (cfg.Flag_Max_Send - (cfg.Flag_Max_Send - 1) + 1 - 1 + 1)
        + (cfg.Flag_Max_Send - 1) := by omega
    rw [hf, run_after h cfg env _ st tr ha _]
    simp only [run]
    rw [hi]
    rfl
  refine ⟨_, hrun, ?_, ?_⟩
  · show reports (tr ++ [Event.close]) = _
    rw [reports_append, (after_reports h cfg env hv hK _ st tr ha).1]
    simp [reports]
  · intro hd hL
    obtain ⟨q, hq⟩ := hd
    have hpos : 0 < cfg.Flag_Count := Nat.pos_of_ne_zero hK
    have hq1 : 1 ≤ q := by
      rcases Nat.eq_zero_or_pos q with h0 | h1
      · rw [h0, Nat.mul_zero] at hq; omega
      · exact h1
    rw [hq, Nat.mul_div_cancel_left q hpos]
    obtain ⟨p, rfl⟩ : ∃ p, q = p + 1 := ⟨q - 1, by omega⟩
    have : cfg.Flag_Count * (p + 1) - 1 = cfg.Flag_Count - 1 + cfg.Flag_Count * p := by
      rw [Nat.mul_succ]; omega
    rw [this, Nat.add_mul_div_left _ _ hpos, Nat.div_eq_of_lt (by omega)]
    omega

end UdpSender
